import Mathlib

/-!
# LP investment dashboard: `App.js`

A shallow embedding of the single view component of the dashboard
(`src/lp-investment-app/src/App.js`): the numbers and values that reach it from
the JSON responses, the cell formatter of `renderTable`, the IRR text, the
projection of the held report to the rendered blocks, and the state changes made
by the two effects and the two input handlers.

Text is held as `String`; the digit-level work is done on `List Char`. Numbers
are held by their exact value, and the arithmetic of the component (`irr * 100`)
rounds as binary64 does. The active locale of `toLocaleString` is `en-US`.
-/

namespace LPDashboard

/-! ## Numbers -/

/-- A JavaScript number. A finite value is `(-1)^neg * m * 2^e`; every IEEE 754
binary64 value has this shape (with `m < 2^53` and `-1074 ≤ e ≤ 971`), and the
sign is kept apart so that negative zero is a value of its own. -/
inductive JSNumber where
  | nan
  | infinity (neg : Bool)
  | finite (neg : Bool) (m : Nat) (e : Int)
  deriving DecidableEq

/-- The finite values that are binary64 values. -/
def JSNumber.isDouble : JSNumber → Bool
  | .finite _ m e => decide (m < 2 ^ 53) && decide (-1074 ≤ e) && decide (e ≤ 971)
  | _ => true

/-! ## Arithmetic -/

/-- The pair `(a, b)` with `a / b = num / (den * 2^e)`. -/
def scaledPair (num den : Nat) : Int → Nat × Nat
  | Int.ofNat k => (num, den * 2 ^ k)
  | Int.negSucc k => (num * 2 ^ (k + 1), den)

/-- The position of the leading binary digit of `n`, by halving at most `fuel`
times. -/
def log2Aux : Nat → Nat → Nat
  | 0, _ => 0
  | fuel + 1, n => if n < 2 then 0 else log2Aux fuel (n / 2) + 1

/-- The floor of the binary logarithm of `n` (`0` for `n = 0`). -/
def log2 (n : Nat) : Nat := log2Aux n n

/-- The binary64 value nearest to `(-1)^neg * num / den`, ties to the even
significand, overflow to infinity, gradual underflow below `2^-1022`. -/
def roundToDouble (neg : Bool) (num den : Nat) : JSNumber :=
  if num = 0 then .finite neg 0 0 else
  let e0 : Int := (log2 num : Int) - (log2 den : Int) - 52
  let p0 := scaledPair num den e0
  let e1 : Int := if p0.1 / p0.2 < 2 ^ 52 then e0 - 1 else e0
  let e : Int := max e1 (-1074)
  let p := scaledPair num den e
  let q := p.1 / p.2
  let r := p.1 % p.2
  let q := if p.2 < 2 * r ∨ (2 * r = p.2 ∧ q % 2 = 1) then q + 1 else q
  if q = 2 ^ 53 then
    if 971 < e + 1 then .infinity neg else .finite neg (2 ^ 52) (e + 1)
  else if 971 < e then .infinity neg else .finite neg q e

/-- The product of two numbers (`*`). -/
def JSNumber.mul : JSNumber → JSNumber → JSNumber
  | .nan, _ => .nan
  | _, .nan => .nan
  | .infinity s, .infinity t => .infinity (xor s t)
  | .infinity s, .finite t m _ => if m = 0 then .nan else .infinity (xor s t)
  | .finite s m _, .infinity t => if m = 0 then .nan else .infinity (xor s t)
  | .finite s m e, .finite t n f =>
    let p := scaledPair (m * n) 1 (-(e + f))
    roundToDouble (xor s t) p.1 p.2

/-- Whether two finite magnitudes `m * 2^e` and `n * 2^f` are equal. -/
def sameMagnitude (m : Nat) (e : Int) (n : Nat) (f : Int) : Bool :=
  let p := scaledPair m 1 (-e)
  let q := scaledPair n 1 (-f)
  p.1 * q.2 == q.1 * p.2

/-- Whether `num / den` rounds to the magnitude `m * 2^e`. -/
def roundsTo (num den : Nat) (m : Nat) (e : Int) : Bool :=
  match roundToDouble false num den with
  | .finite _ n f => sameMagnitude n f m e
  | _ => false

/-! ## Numbers as decimal text -/

/-- The decimal digits of `n`, most significant first, `0` written as one digit. -/
def decimalDigits (n : Nat) : List Char := Nat.toDigits 10 n

/-- The pair `(a, b)` with `a / b = num / den * 10^z`. -/
def scaledPair10 (num den : Nat) : Int → Nat × Nat
  | Int.ofNat k => (num * 10 ^ k, den)
  | Int.negSucc k => (num, den * 10 ^ (k + 1))

/-- The least `j` from `j` on with `b ≤ a * 10^j`, trying at most `fuel` values. -/
def leadShift : Nat → Nat → Nat → Nat → Nat
  | 0, _, _, j => j
  | fuel + 1, a, b, j => if b ≤ a * 10 ^ j then j else leadShift fuel a b (j + 1)

/-- The `n` with `10^(n-1) ≤ a / b < 10^n`, for `a / b` positive. -/
def decimalExponent (a b : Nat) : Int :=
  if b ≤ a then ((decimalDigits (a / b)).length : Int)
  else 1 - (leadShift ((decimalDigits b).length + 1) a b 1 : Int)

/-- The decimals `s * 10^z` with exactly `k` digits `s` that read back as the
magnitude `m * 2^e = a / b`, as pairs `(s, z)`; `n0` is the decimal exponent of
`a / b`. Only the two multiples of `10^z` next to `a / b` are tried, for the two
exponents a nearest decimal can have. -/
def shortestCandidates (a b m : Nat) (e : Int) (n0 : Int) (k : Nat) : List (Nat × Int) :=
  ([n0, n0 + 1].flatMap fun n =>
    let p := scaledPair10 a b (k - n)
    [(p.1 / p.2, n - k), (p.1 / p.2 + 1, n - k)]).filter fun c =>
      decide (10 ^ (k - 1) ≤ c.1) && decide (c.1 < 10 ^ k) &&
        roundsTo (scaledPair10 c.1 1 c.2).1 (scaledPair10 c.1 1 c.2).2 m e

/-- The distance of `s * 10^z` from `a / b`, as a fraction. -/
def candidateDistance (a b : Nat) (c : Nat × Int) : Nat × Nat :=
  let q := scaledPair10 c.1 1 c.2
  (if q.1 * b ≤ a * q.2 then a * q.2 - q.1 * b else q.1 * b - a * q.2, q.2 * b)

/-- The better of two candidates: the closer one, the even one on a tie. -/
def betterCandidate (a b : Nat) (c d : Nat × Int) : Nat × Int :=
  let x := candidateDistance a b c
  let y := candidateDistance a b d
  if y.1 * x.2 < x.1 * y.2 then d
  else if y.1 * x.2 = x.1 * y.2 ∧ d.1 % 2 = 0 then d
  else c

/-- The best candidate for the least digit count from `k` on that has one,
trying at most `fuel` digit counts. -/
def shortestSearch (a b m : Nat) (e : Int) (n0 : Int) : Nat → Nat → Option (Nat × Int)
  | 0, _ => none
  | fuel + 1, k =>
    match shortestCandidates a b m e n0 k with
    | [] => shortestSearch a b m e n0 fuel (k + 1)
    | c :: cs => some (cs.foldl (betterCandidate a b) c)

/-- The exact decimal of `m * 2^e`. -/
def exactDecimal (m : Nat) : Int → Nat × Int
  | Int.ofNat k => (m * 2 ^ k, 0)
  | Int.negSucc k => (m * 5 ^ (k + 1), Int.negSucc k)

/-- The decimal `s * 10^z` that `Number::toString` writes for the positive
magnitude `m * 2^e`: the one with the fewest digits that reads back as the same
binary64 value, the nearest of these. Seventeen digits are enough for every
binary64 value; for other magnitudes the exact decimal stands in. -/
def shortestDecimal (m : Nat) (e : Int) : Nat × Int :=
  let p := scaledPair m 1 (-e)
  (shortestSearch p.1 p.2 m e (decimalExponent p.1 p.2) 17 1).getD (exactDecimal m e)

/-- The text `Number::toString` gives for a finite magnitude `m * 2^e` that is
at least `10^21`: the digits of the shortest decimal, a point after the first
when there are more, and the exponent. -/
def largeToString (m : Nat) (e : Int) : List Char :=
  let d := shortestDecimal m e
  let ds := decimalDigits d.1
  let ex := 'e' :: '+' :: decimalDigits ((ds.length : Int) + d.2 - 1).toNat
  if ds.length = 1 then ds ++ ex else ds.take 1 ++ '.' :: ds.drop 1 ++ ex

/-- The integer nearest to `num / den`, the upper one of two. -/
def roundHalfUp (num den : Nat) : Nat := (2 * num + den) / (2 * den)

/-- The integer `n` for which `n / 10^f - x` is as close to zero as possible,
the larger one when there are two, for the magnitude `x = m * 2^e`
(`Number.prototype.toFixed`, step 8.a). -/
def roundScaled (f : Nat) (m : Nat) (e : Int) : Nat :=
  roundHalfUp (scaledPair (m * 10 ^ f) 1 (-e)).1 (scaledPair (m * 10 ^ f) 1 (-e)).2

/-- The mathematical value `s * 10^z` that `Intl.NumberFormat` takes for the
magnitude `m * 2^e`: the number is read through the decimal text that
`Number::toString` writes for it. -/
def intlMathematicalValue (m : Nat) (e : Int) : Nat × Int :=
  if m = 0 then (0, 0) else shortestDecimal m e

/-- The integer `n` for which `n / 10^f` is the magnitude `m * 2^e` rounded to
`f` fraction digits by `Intl.NumberFormat`, half away from zero. -/
def localeScaled (f : Nat) (m : Nat) (e : Int) : Nat :=
  roundHalfUp (scaledPair10 (intlMathematicalValue m e).1 1 ((intlMathematicalValue m e).2 + f)).1
    (scaledPair10 (intlMathematicalValue m e).1 1 ((intlMathematicalValue m e).2 + f)).2

/-- The digit string of `n` split `f` places from the right, padded with
leading zeros to `f + 1` digits first when it is shorter: the integer digits and
the fraction digits of `n / 10^f`. -/
def splitFixed (f : Nat) (n : Nat) : List Char × List Char :=
  let m := decimalDigits n
  let m := if m.length ≤ f then List.replicate (f + 1 - m.length) '0' ++ m else m
  (m.take (m.length - f), m.drop (m.length - f))

/-- The sign text. -/
def signText (neg : Bool) : List Char := if neg then ['-'] else []

/-- Whether the magnitude `m * 2^e` is at least `10^21`. -/
def atLeast1e21 (m : Nat) (e : Int) : Bool :=
  let p := scaledPair m 1 (-e)
  decide (10 ^ 21 * p.2 ≤ p.1)

/-- The method `Number.prototype.toFixed(f)`. -/
def toFixed (f : Nat) : JSNumber → String
  | .nan => "NaN"
  | .infinity neg => if neg then "-Infinity" else "Infinity"
  | .finite neg m e =>
    let s := signText (neg && decide (m ≠ 0))
    if atLeast1e21 m e then String.mk (s ++ largeToString m e)
    else
      let p := splitFixed f (roundScaled f m e)
      String.mk (s ++ p.1 ++ (if f = 0 then [] else '.' :: p.2))

/-- Grouping separators on a reversed digit string: one after every third digit
that has a digit after it. -/
def groupRev : List Char → List Char
  | a :: b :: c :: d :: rest => a :: b :: c :: ',' :: groupRev (d :: rest)
  | ds => ds

/-- The integer digits in groups of three counted from the right, separated by
commas (the grouping of the `en-US` locale). -/
def groupThousands (ds : List Char) : List Char := (groupRev ds.reverse).reverse

/-- The call `value.toLocaleString(undefined, {minimumFractionDigits: 2,
maximumFractionDigits: 2})` with `en-US` as the active locale. The sign of a
negative value is kept when the magnitude rounds to zero. -/
def toLocaleString : JSNumber → String
  | .nan => "NaN"
  | .infinity neg => String.mk (signText neg ++ ['∞'])
  | .finite neg m e =>
    let p := splitFixed 2 (localeScaled 2 m e)
    String.mk (signText neg ++ groupThousands p.1 ++ '.' :: p.2)

/-! ## Table values and the cell formatter -/

/-- A value of a flat mapping of the report, as `JSON.parse` delivers it. -/
inductive JSValue where
  | null
  | bool (b : Bool)
  | number (x : JSNumber)
  | string (s : String)
  deriving DecidableEq

/-- The result of `typeof value`. -/
def JSValue.typeof : JSValue → String
  | .null => "object"
  | .bool _ => "boolean"
  | .number _ => "number"
  | .string _ => "string"

/-- The content of the right cell of a row of `renderTable` (lines 56-61). -/
def formatCell (value : JSValue) : JSValue :=
  match value with
  | .number x => .string ("$" ++ toLocaleString x)
  | v => v

/-! ## The report -/

/-- The number `100`. -/
def hundred : JSNumber := .finite false 100 0

/-- The value of `lpData.irr`: `null`, a number, or `undefined` when the
response has no such field. -/
inductive IrrField where
  | missing
  | null
  | number (x : JSNumber)
  deriving DecidableEq

/-- The numeric value an operand of `*` is converted to. -/
def IrrField.toNumber : IrrField → JSNumber
  | .missing => .nan
  | .null => .finite false 0 0
  | .number x => x

/-- The text inside the IRR span (line 130):
`lpData.irr !== null ? (lpData.irr * 100).toFixed(2) + "%" : "N/A"`. -/
def irrText (irr : IrrField) : String :=
  if irr ≠ .null then toFixed 2 (irr.toNumber.mul hundred) ++ "%" else "N/A"

/-- A flat mapping of the report: its properties in the order of their creation,
which for a parsed response is the order of first appearance in the text. -/
abbrev JSObject := List (String × JSValue)

/-- The fetched payload. -/
structure Report where
  lp_info : JSObject
  fund_data : JSObject
  totals : JSObject
  irr : IrrField
  pcap_report_date : String
  deriving DecidableEq

/-! ## Tables -/

/-- The number read from a string of decimal digits. -/
def parseDigits (cs : List Char) : Nat :=
  cs.foldl (fun a c => 10 * a + (c.toNat - 48)) 0

/-- The array index a property key stands for: the key is the canonical decimal
text of an integer below `2^32 - 1`. -/
def arrayIndex? (key : String) : Option Nat :=
  let n := parseDigits key.data
  if decimalDigits n = key.data ∧ n < 2 ^ 32 - 1 then some n else none

/-- The result of `Object.entries(data)`: the properties whose keys are array
indices in ascending numeric order, then the others in creation order. -/
def objectEntries (data : JSObject) : List (String × JSValue) :=
  let indexed := data.filterMap fun p => (arrayIndex? p.1).map fun n => (n, p)
  (indexed.insertionSort fun a b => a.1 ≤ b.1).map Prod.snd
    ++ data.filter fun p => (arrayIndex? p.1).isNone

/-- One `TableRow`: its React key and the contents of its two cells. -/
structure Row where
  key : String
  left : String
  right : JSValue
  deriving DecidableEq

/-- The helper `renderTable` (lines 49-67): the rows of the table body. -/
def renderTable (data : JSObject) : List Row :=
  (objectEntries data).map fun p => { key := p.1, left := p.1, right := formatCell p.2 }

/-! ## The view -/

/-- A block rendered below the selection controls. -/
inductive Block where
  | table (title : String) (rows : List Row)
  | irrLine (label : String) (value : String) (caption : String)
  deriving DecidableEq

/-- The output below the controls (lines 104-139): `lpData && (...)`. -/
def renderOutput : Option Report → List Block
  | none => []
  | some lpData =>
    [ .table "LP Info" (renderTable lpData.lp_info),
      .table "Fund Data" (renderTable lpData.fund_data),
      .table "Totals" (renderTable lpData.totals),
      .irrLine "IRR: " (irrText lpData.irr)
        ("(as of PCAP Date: " ++ lpData.pcap_report_date ++ ")") ]

/-! ## State -/

/-- The four pieces of state of `App`. -/
structure AppState where
  lps : List String
  selectedLP : String
  reportDate : String
  lpData : Option Report
  deriving DecidableEq

/-- The selection controls: the options and value of the LP select, and the
value and `max` attribute of the date field. -/
structure Controls where
  options : List String
  selected : String
  date : String
  dateMax : String
  deriving DecidableEq

/-- What `App` returns: the controls and the output below them. `today` is
`new Date().toISOString().split('T')[0]` at the time of the render. -/
def render (today : String) (s : AppState) : Controls × List Block :=
  ({ options := s.lps, selected := s.selectedLP, date := s.reportDate, dateMax := today },
   renderOutput s.lpData)

/-- The state of the first render; `today` is the date at that time. -/
def init (today : String) : AppState :=
  { lps := [], selectedLP := "", reportDate := today, lpData := none }

/-- What can happen to a mounted `App`. The `data` of a successful report
response is `res.data`: a report object, or `null` (here `none`) when the body
of the response is the JSON text `null`. -/
inductive Event where
  | lpsLoaded (ids : List String)
  | selectLP (id : String)
  | selectReportDate (date : String)
  | reportSucceeded (data : Option Report)
  | reportFailed (err : String)
  deriving DecidableEq

/-- What `App` does to the outside. -/
inductive Effect where
  | get (url : String)
  | consoleError (err : String)
  deriving DecidableEq

/-- The address of the report request (line 42). -/
def reportUrl (selectedLP reportDate : String) : String :=
  "http://localhost:5000/api/lp/" ++ selectedLP ++ "?report_date=" ++ reportDate

/-- The body of the second effect (lines 41-45): a string is truthy when it is
not empty. -/
def reportEffect (s : AppState) : List Effect :=
  if s.selectedLP ≠ "" then [.get (reportUrl s.selectedLP s.reportDate)] else []

/-- The effects of the first render: the list request, and the report effect. -/
def mountEffects (today : String) : List Effect :=
  .get "http://localhost:5000/api/lps" :: reportEffect (init today)

/-- One event: the next state and what is done. A setter that stores an equal
value leaves the dependencies of the report effect unchanged, and the effect
does not run. -/
def step (s : AppState) : Event → AppState × List Effect
  | .lpsLoaded ids => ({ s with lps := ids }, [])
  | .selectLP id =>
    let s' := { s with selectedLP := id }
    (s', if s.selectedLP = id then [] else reportEffect s')
  | .selectReportDate date =>
    let s' := { s with reportDate := date }
    (s', if s.reportDate = date then [] else reportEffect s')
  | .reportSucceeded data => ({ s with lpData := data }, [])
  | .reportFailed err => (s, [.consoleError err])

/-- The state after a sequence of events. -/
def run (s : AppState) (events : List Event) : AppState :=
  events.foldl (fun t e => (step t e).1) s

/-- Everything done during a sequence of events, in order. -/
def effects : AppState → List Event → List Effect
  | _, [] => []
  | s, e :: es => (step s e).2 ++ effects (step s e).1 es

/-- The `res.data` of a successful report response. -/
def Event.data? : Event → Option (Option Report)
  | .reportSucceeded data => some data
  | _ => none

/-! ## Addresses -/

/-- The part of an address that is sent with a request: the fragment, which
starts at the first `#`, stays with the client. -/
def sentAddress (url : String) : String :=
  String.mk (url.data.takeWhile fun c => c != '#')

/-- What precedes the query in the part of an address that is sent: scheme,
host and path, up to the first `?`. -/
def addressPath (url : String) : String :=
  String.mk ((sentAddress url).data.takeWhile fun c => c != '?')

/-- The query of the part of an address that is sent: what follows the first
`?`, if there is one. -/
def addressQuery (url : String) : Option String :=
  match (sentAddress url).data.dropWhile fun c => c != '?' with
  | [] => none
  | _ :: q => some (String.mk q)

/-! ## The scenario of the specification -/

/-- The response of the scenario: one entry per table and an IRR of `0.12`. -/
def acmeReport : Report :=
  { lp_info := [("Name", .string "Acme")]
    fund_data := [("NAV", .number (.finite false 500000 0))]
    totals := [("Capital Called", .number (.finite false 100000 0))]
    irr := .number (roundToDouble false 12 100)
    pcap_report_date := "2023-12-31" }

/-- A report without entries and with a null IRR. -/
def emptyReport : Report :=
  { lp_info := [], fund_data := [], totals := [], irr := .null, pcap_report_date := "2023-09-30" }

/-- The state after the list `LP1`, `LP2` has been loaded on `2024-01-01`. -/
def loadedState : AppState :=
  { lps := ["LP1", "LP2"], selectedLP := "", reportDate := "2024-01-01", lpData := none }

/-- The state after `LP2` has been selected. -/
def selectedState : AppState :=
  { lps := ["LP1", "LP2"], selectedLP := "LP2", reportDate := "2024-01-01", lpData := none }

/-! ## Shapes of text -/

/-- The text is `$`, an optional minus sign, a non-empty run of decimal digits in
groups of three separated by commas, a point, and two decimal digits. -/
def IsCurrencyText (s : String) : Prop :=
  ∃ (neg : Bool) (ip : List Char) (d1 d2 : Char),
    ip ≠ [] ∧ (∀ c ∈ ip, c.isDigit = true) ∧ d1.isDigit = true ∧ d2.isDigit = true ∧
    s = String.mk ('$' :: (signText neg ++ groupThousands ip ++ ['.', d1, d2]))

/-! # Theorems -/

set_option maxRecDepth 4000

/-! ## Decimal digits -/

theorem digitChar_isDigit (d : Nat) (h : d < 10) : (Nat.digitChar d).isDigit = true := by
  interval_cases d <;> decide

theorem toDigitsCore_acc (fuel n : Nat) (acc : List Char) :
    Nat.toDigitsCore 10 fuel n acc = Nat.toDigitsCore 10 fuel n [] ++ acc := by
  induction fuel generalizing n acc with
  | zero => simp [Nat.toDigitsCore]
  | succ fuel ih =>
    simp only [Nat.toDigitsCore]
    split
    · simp
    · rw [ih (n / 10) (_ :: acc), ih (n / 10) [_]]
      simp

theorem toDigitsCore_fuel (fuel : Nat) :
    ∀ n fuel2, n < fuel → n < fuel2 →
      Nat.toDigitsCore 10 fuel n [] = Nat.toDigitsCore 10 fuel2 n [] := by
  induction fuel with
  | zero => intro n fuel2 h; omega
  | succ fuel ih =>
    intro n fuel2 h h2
    obtain ⟨g, rfl⟩ : ∃ g, fuel2 = g + 1 := ⟨fuel2 - 1, by omega⟩
    simp only [Nat.toDigitsCore]
    split
    · rfl
    · rename_i hn
      rw [toDigitsCore_acc fuel, toDigitsCore_acc g, ih (n / 10) g (by omega) (by omega)]

theorem decimalDigits_of_lt (n : Nat) (h : n < 10) :
    decimalDigits n = [Nat.digitChar n] := by
  simp [decimalDigits, Nat.toDigits, Nat.toDigitsCore, Nat.div_eq_of_lt h, Nat.mod_eq_of_lt h]

theorem decimalDigits_of_ge (n : Nat) (h : 10 ≤ n) :
    decimalDigits n = decimalDigits (n / 10) ++ [Nat.digitChar (n % 10)] := by
  have h0 : n / 10 ≠ 0 := by omega
  have e : Nat.toDigitsCore 10 (n + 1) n [] =
      Nat.toDigitsCore 10 n (n / 10) [Nat.digitChar (n % 10)] := by
    simp [Nat.toDigitsCore, h0]
  show Nat.toDigitsCore 10 (n + 1) n [] =
    Nat.toDigitsCore 10 (n / 10 + 1) (n / 10) [] ++ [Nat.digitChar (n % 10)]
  rw [e, toDigitsCore_acc, toDigitsCore_fuel n (n / 10) (n / 10 + 1) (by omega) (by omega)]

theorem decimalDigits_ne_nil (n : Nat) : decimalDigits n ≠ [] := by
  by_cases h : n < 10
  · simp [decimalDigits_of_lt n h]
  · simp [decimalDigits_of_ge n (by omega)]

theorem decimalDigits_isDigit (n : Nat) : ∀ c ∈ decimalDigits n, c.isDigit = true := by
  induction n using Nat.strong_induction_on with
  | _ n ih =>
    by_cases h : n < 10
    · intro c hc
      rw [decimalDigits_of_lt n h] at hc
      simp only [List.mem_singleton] at hc
      exact hc ▸ digitChar_isDigit n h
    · intro c hc
      rw [decimalDigits_of_ge n (by omega), List.mem_append, List.mem_singleton] at hc
      rcases hc with hc | hc
      · exact ih (n / 10) (by omega) c hc
      · exact hc ▸ digitChar_isDigit (n % 10) (Nat.mod_lt _ (by decide))

/-- The integer digits and the two fraction digits of `n / 100`. -/
theorem splitFixed_two (n : Nat) :
    splitFixed 2 n =
      (decimalDigits (n / 100), [Nat.digitChar (n / 10 % 10), Nat.digitChar (n % 10)]) := by
  have hz : Nat.digitChar 0 = '0' := rfl
  by_cases h1 : n < 10
  · have h2 : n / 100 = 0 := by omega
    have h3 : n / 10 % 10 = 0 := by omega
    simp [splitFixed, decimalDigits_of_lt n h1, h2, h3, decimalDigits_of_lt 0, Nat.mod_eq_of_lt h1, hz]
  · by_cases h2 : n < 100
    · have h3 : n / 100 = 0 := by omega
      have h4 : n / 10 < 10 := by omega
      simp [splitFixed, decimalDigits_of_ge n (by omega), decimalDigits_of_lt (n / 10) h4, h3,
        decimalDigits_of_lt 0, Nat.mod_eq_of_lt h4, hz]
    · have h3 : n / 10 / 10 = n / 100 := by omega
      have hl := List.length_pos.mpr (decimalDigits_ne_nil (n / 100))
      simp only [splitFixed, decimalDigits_of_ge n (by omega),
        decimalDigits_of_ge (n / 10) (by omega), h3, List.append_assoc, List.length_append,
        List.length_cons, List.length_nil, List.singleton_append]
      rw [if_neg (by omega)]
      simp

theorem groupRev_ne_nil (ds : List Char) (h : ds ≠ []) : groupRev ds ≠ [] := by
  unfold groupRev
  split
  · simp
  · exact h

theorem groupThousands_ne_nil (ds : List Char) (h : ds ≠ []) : groupThousands ds ≠ [] := by
  simp only [groupThousands, ne_eq, List.reverse_eq_nil_iff]
  exact groupRev_ne_nil _ (by simpa using h)

/-! ## The cell formatter -/

theorem roundHalfUp_near (num den : Nat) (h : 0 < den) :
    (num : ℚ) / den - 1 / 2 < (roundHalfUp num den : ℚ) ∧
      (roundHalfUp num den : ℚ) ≤ (num : ℚ) / den + 1 / 2 := by
  unfold roundHalfUp
  set n := (2 * num + den) / (2 * den) with hn
  have hle : 2 * den * n ≤ 2 * num + den := Nat.mul_div_le _ _
  have hlt : 2 * num + den < 2 * den * (n + 1) := by
    have := Nat.lt_mul_div_succ (2 * num + den) (show 0 < 2 * den by omega)
    simpa [hn] using this
  have hleq : (2 : ℚ) * den * n ≤ 2 * num + den := by exact_mod_cast hle
  have hltq : (2 : ℚ) * num + den < 2 * den * (n + 1) := by exact_mod_cast hlt
  have hDq : (0 : ℚ) < den := by exact_mod_cast h
  obtain ⟨x, hxA⟩ : ∃ x : ℚ, x = (num : ℚ) / den := ⟨_, rfl⟩
  have hxD : x * den = num := by rw [hxA]; field_simp
  rw [← hxA]
  rw [← hxD] at hleq hltq
  constructor
  · nlinarith
  · nlinarith

theorem scaledPair_pos (num den : Nat) (e : Int) (h : 0 < den) :
    0 < (scaledPair num den e).2 := by
  cases e <;> simp only [scaledPair] <;> positivity

theorem scaledPair_value (num den : Nat) (e : Int) :
    ((scaledPair num den e).1 : ℚ) / (scaledPair num den e).2 =
      (num : ℚ) / den / (2 : ℚ) ^ e := by
  cases e with
  | ofNat k =>
    simp only [scaledPair, Int.ofNat_eq_coe, zpow_natCast]
    push_cast
    rw [div_div]
  | negSucc k =>
    simp only [scaledPair, zpow_negSucc]
    push_cast
    rw [div_inv_eq_mul]
    ring

theorem scaledPair10_pos (num den : Nat) (z : Int) (h : 0 < den) :
    0 < (scaledPair10 num den z).2 := by
  cases z <;> simp only [scaledPair10] <;> positivity

theorem scaledPair10_value (num den : Nat) (z : Int) :
    ((scaledPair10 num den z).1 : ℚ) / (scaledPair10 num den z).2 =
      (num : ℚ) / den * (10 : ℚ) ^ z := by
  cases z with
  | ofNat k =>
    simp only [scaledPair10, Int.ofNat_eq_coe, zpow_natCast]
    push_cast
    ring
  | negSucc k =>
    simp only [scaledPair10, zpow_negSucc]
    push_cast
    rw [← div_eq_mul_inv, div_div]

/-- The integer `toFixed` rounds to is the one nearest to the scaled magnitude,
the upper one of two. -/
theorem roundScaled_near (f m : Nat) (e : Int) :
    (10 : ℚ) ^ f * ((m : ℚ) * (2 : ℚ) ^ e) - 1 / 2 < (roundScaled f m e : ℚ) ∧
      (roundScaled f m e : ℚ) ≤ (10 : ℚ) ^ f * ((m : ℚ) * (2 : ℚ) ^ e) + 1 / 2 := by
  have h := roundHalfUp_near (scaledPair (m * 10 ^ f) 1 (-e)).1 (scaledPair (m * 10 ^ f) 1 (-e)).2
    (scaledPair_pos _ _ _ (by decide))
  rw [scaledPair_value, zpow_neg, div_inv_eq_mul] at h
  have hv : ((m * 10 ^ f : Nat) : ℚ) / ((1 : Nat) : ℚ) * (2 : ℚ) ^ e =
      (10 : ℚ) ^ f * ((m : ℚ) * (2 : ℚ) ^ e) := by
    push_cast
    ring
  rw [hv] at h
  exact h

/-- The integer the locale format rounds to is the one nearest to the scaled
decimal that stands for the number, the upper one of two. -/
theorem localeScaled_near (f m : Nat) (e : Int) :
    (10 : ℚ) ^ f * (((intlMathematicalValue m e).1 : ℚ) * (10 : ℚ) ^ (intlMathematicalValue m e).2)
        - 1 / 2 < (localeScaled f m e : ℚ) ∧
      (localeScaled f m e : ℚ) ≤
        (10 : ℚ) ^ f * (((intlMathematicalValue m e).1 : ℚ) *
          (10 : ℚ) ^ (intlMathematicalValue m e).2) + 1 / 2 := by
  have h := roundHalfUp_near
    (scaledPair10 (intlMathematicalValue m e).1 1 ((intlMathematicalValue m e).2 + f)).1
    (scaledPair10 (intlMathematicalValue m e).1 1 ((intlMathematicalValue m e).2 + f)).2
    (scaledPair10_pos _ _ _ (by decide))
  rw [scaledPair10_value, zpow_add₀ (by norm_num), zpow_natCast] at h
  have hv : (((intlMathematicalValue m e).1 : Nat) : ℚ) / ((1 : Nat) : ℚ) *
      ((10 : ℚ) ^ (intlMathematicalValue m e).2 * (10 : ℚ) ^ f) =
      (10 : ℚ) ^ f * (((intlMathematicalValue m e).1 : ℚ) *
        (10 : ℚ) ^ (intlMathematicalValue m e).2) := by
    push_cast
    ring
  rw [hv] at h
  exact h

theorem toLocaleString_finite (neg : Bool) (m : Nat) (e : Int) :
    toLocaleString (.finite neg m e) =
      String.mk (signText neg ++ groupThousands (decimalDigits (localeScaled 2 m e / 100)) ++
        ['.', Nat.digitChar (localeScaled 2 m e / 10 % 10),
          Nat.digitChar (localeScaled 2 m e % 10)]) := by
  simp [toLocaleString, splitFixed_two]

theorem not_isCurrencyText_of_short (s : String) (h : s.data.length < 5) :
    ¬ IsCurrencyText s := by
  rintro ⟨neg, ip, d1, d2, hne, -, -, -, rfl⟩
  have hg := List.length_pos.mpr (groupThousands_ne_nil ip hne)
  simp only [List.length_cons, List.length_append, List.length_nil] at h
  omega

/-- C1, as amended: for every finite number the cell text is `$`, a minus sign
when the number is negative (negative zero included), the integer part of the
value rounded to two decimals in groups of three, a point and exactly two
decimal digits, where the value is the number as `Number::toString` writes it
and the rounding is to the nearest, half away from zero; `0`, `1234.5` and
`1000000` give `$0.00`, `$1,234.50` and `$1,000,000.00`. The non-finite numbers
give `$NaN`, `$∞` and `$-∞`. -/
theorem formatCell_number (neg : Bool) (m : Nat) (e : Int) :
    formatCell (.number (.finite neg m e)) =
        .string (String.mk ('$' :: (signText neg ++
          groupThousands (decimalDigits (localeScaled 2 m e / 100)) ++
          ['.', Nat.digitChar (localeScaled 2 m e / 10 % 10),
            Nat.digitChar (localeScaled 2 m e % 10)]))) ∧
      (∃ s, formatCell (.number (.finite neg m e)) = .string s ∧ IsCurrencyText s) ∧
      (100 * (((intlMathematicalValue m e).1 : ℚ) * (10 : ℚ) ^ (intlMathematicalValue m e).2)
          - 1 / 2 < (localeScaled 2 m e : ℚ) ∧
        (localeScaled 2 m e : ℚ) ≤
          100 * (((intlMathematicalValue m e).1 : ℚ) * (10 : ℚ) ^ (intlMathematicalValue m e).2)
            + 1 / 2) ∧
      formatCell (.number (.finite false 0 0)) = .string "$0.00" ∧
      formatCell (.number (.finite false 2469 (-1))) = .string "$1,234.50" ∧
      formatCell (.number (.finite false 1000000 0)) = .string "$1,000,000.00" ∧
      formatCell (.number .nan) = .string "$NaN" ∧
      formatCell (.number (.infinity false)) = .string "$∞" ∧
      formatCell (.number (.infinity true)) = .string "$-∞" := by
  have hd1 : (Nat.digitChar (localeScaled 2 m e / 10 % 10)).isDigit = true :=
    digitChar_isDigit _ (Nat.mod_lt _ (by decide))
  have hd2 : (Nat.digitChar (localeScaled 2 m e % 10)).isDigit = true :=
    digitChar_isDigit _ (Nat.mod_lt _ (by decide))
  have hf : formatCell (.number (.finite neg m e)) =
      .string (String.mk ('$' :: (signText neg ++
        groupThousands (decimalDigits (localeScaled 2 m e / 100)) ++
        ['.', Nat.digitChar (localeScaled 2 m e / 10 % 10),
          Nat.digitChar (localeScaled 2 m e % 10)]))) := by
    simp only [formatCell, toLocaleString_finite]
    rfl
  refine ⟨hf, ⟨_, hf, neg, _, _, _, decimalDigits_ne_nil _, decimalDigits_isDigit _, hd1, hd2,
    rfl⟩, ?_, by decide, by decide, by decide, by decide, by decide, by decide⟩
  have := localeScaled_near 2 m e
  norm_num at this ⊢
  exact this

/-- C1, as stated, fails at the non-finite numbers: for `Infinity` (which
`JSON.parse` gives for `1e999`) the cell text is `$∞`, and for `NaN` it is
`$NaN`; neither has an integer part, a point or decimal digits. -/
theorem formatCell_number_nonfinite :
    formatCell (.number (.infinity false)) = .string "$∞" ∧ ¬ IsCurrencyText "$∞" ∧
      formatCell (.number .nan) = .string "$NaN" ∧ ¬ IsCurrencyText "$NaN" :=
  ⟨by decide, not_isCurrencyText_of_short _ (by decide), by decide,
    not_isCurrencyText_of_short _ (by decide)⟩

/-- C9: a table value that is not a number (every string, also one made of
digits such as `1000`, and the empty string) is returned unchanged by the cell
formatter. -/
theorem formatCell_not_number (v : JSValue) (h : v.typeof ≠ "number") :
    formatCell v = v ∧ ∀ s : String, formatCell (.string s) = .string s := by
  constructor
  · cases v with
    | number x => exact absurd rfl h
    | null => rfl
    | bool b => rfl
    | string s => rfl
  · intro s
    rfl

theorem formatCell_not_number_witness :
    JSValue.typeof (.string "1000") ≠ "number" ∧
      formatCell (.string "1000") = .string "1000" ∧
      formatCell (.string "") = .string "" :=
  ⟨by decide, (formatCell_not_number (.string "1000") (by decide)).1,
    (formatCell_not_number (.string "1000") (by decide)).2 ""⟩

/-! ## The IRR text -/

theorem toFixed_two_finite (neg : Bool) (m : Nat) (e : Int) (h : atLeast1e21 m e = false) :
    toFixed 2 (.finite neg m e) =
      String.mk (signText (neg && decide (m ≠ 0)) ++ decimalDigits (roundScaled 2 m e / 100) ++
        ['.', Nat.digitChar (roundScaled 2 m e / 10 % 10),
          Nat.digitChar (roundScaled 2 m e % 10)]) := by
  simp [toFixed, h, splitFixed_two]

theorem append_percent_ne (s : String) : s ++ "%" ≠ "N/A" := by
  intro h
  have h2 := congrArg (fun t => t.data.reverse) h
  simp at h2

/-- C2, as amended: the IRR text is `N/A` exactly when `irr` is null. When `irr`
is a number whose product with 100 is finite and below `10^21` in magnitude, the
text is a minus sign when the product is negative, the integer part of the
product rounded to two decimals (the nearest, the upper one of two, on the
magnitude), a point, exactly two decimal digits, and `%`; `0`, `0.0825` and
`-0.01` give `0.00%`, `8.25%` and `-1.00%`. -/
theorem irrText_spec :
    (∀ i : IrrField, irrText i = "N/A" ↔ i = .null) ∧
      (∀ (x : JSNumber) (neg : Bool) (m : Nat) (e : Int),
        x.mul hundred = .finite neg m e → atLeast1e21 m e = false →
          irrText (.number x) =
              String.mk (signText (neg && decide (m ≠ 0)) ++
                decimalDigits (roundScaled 2 m e / 100) ++
                ['.', Nat.digitChar (roundScaled 2 m e / 10 % 10),
                  Nat.digitChar (roundScaled 2 m e % 10), '%']) ∧
            100 * ((m : ℚ) * (2 : ℚ) ^ e) - 1 / 2 < (roundScaled 2 m e : ℚ) ∧
            (roundScaled 2 m e : ℚ) ≤ 100 * ((m : ℚ) * (2 : ℚ) ^ e) + 1 / 2) ∧
      irrText .null = "N/A" ∧
      irrText (.number (.finite false 0 0)) = "0.00%" ∧
      irrText (.number (roundToDouble false 825 10000)) = "8.25%" ∧
      irrText (.number (roundToDouble true 1 100)) = "-1.00%" := by
  refine ⟨?_, ?_, by decide, by decide, by decide, by decide⟩
  · intro i
    constructor
    · intro h
      by_contra hi
      simp only [irrText, ne_eq, hi, not_false_eq_true, if_true] at h
      exact append_percent_ne _ h
    · rintro rfl
      rfl
  · intro x neg m e hx hlt
    refine ⟨?_, ?_⟩
    · simp only [irrText, ne_eq, reduceCtorEq, not_false_eq_true, if_true, IrrField.toNumber, hx,
        toFixed_two_finite neg m e hlt]
      apply String.ext
      simp
    · have := roundScaled_near 2 m e
      norm_num at this ⊢
      exact this

theorem irrText_spec_witness :
    (roundToDouble false 12 100).isDouble = true ∧
      (roundToDouble false 12 100).mul hundred = .finite false 6755399441055744 (-49) ∧
      atLeast1e21 6755399441055744 (-49) = false ∧
      irrText (.number (roundToDouble false 12 100)) = "12.00%" := by
  have h := (irrText_spec.2.1 (roundToDouble false 12 100) false 6755399441055744 (-49)
    (by decide) (by decide)).1
  refine ⟨by decide, by decide, by decide, ?_⟩
  rw [h]
  decide

/-- C2, as stated, fails: a report without an `irr` field shows `NaN%`, not
`N/A`; and for `irr = 1e19` the text is `1e+21%`, for an infinite `irr` it is
`Infinity%`, none of which has two decimal digits. -/
theorem irrText_missing :
    irrText .missing = "NaN%" ∧ irrText .missing ≠ "N/A" ∧
      (roundToDouble false (10 ^ 19) 1).isDouble = true ∧
      irrText (.number (roundToDouble false (10 ^ 19) 1)) = "1e+21%" ∧
      irrText (.number (.infinity false)) = "Infinity%" :=
  ⟨by decide, by decide, by decide, by decide, by decide⟩

/-! ## Tables -/

theorem objectEntries_perm (data : JSObject) : (objectEntries data).Perm data := by
  have h1 : ((data.filterMap fun p => (arrayIndex? p.1).map fun n => (n, p)).map Prod.snd) =
      data.filter fun p => (arrayIndex? p.1).isSome := by
    induction data with
    | nil => rfl
    | cons p ps ih =>
      cases hp : arrayIndex? p.1 with
      | none => simp [List.filterMap_cons, List.filter_cons, hp, ih]
      | some n => simp [List.filterMap_cons, List.filter_cons, hp, ih]
  have h2 := ((List.perm_insertionSort (fun a b : Nat × (String × JSValue) => a.1 ≤ b.1)
    (data.filterMap fun p => (arrayIndex? p.1).map fun n => (n, p))).map Prod.snd)
  rw [h1] at h2
  have h3 : (data.filter fun p => (arrayIndex? p.1).isNone) =
      data.filter fun p => !(arrayIndex? p.1).isSome := by
    congr 1
    funext p
    cases arrayIndex? p.1 <;> rfl
  unfold objectEntries
  rw [h3]
  exact (h2.append_right _).trans (List.filter_append_perm _ data)

theorem indexed_sorted (data : JSObject) :
    ∃ ns : List Nat,
      (((data.filterMap fun p => (arrayIndex? p.1).map fun n => (n, p)).insertionSort
        fun a b => a.1 ≤ b.1).map fun x => arrayIndex? x.2.1) = ns.map some ∧
      ns.Sorted (· ≤ ·) := by
  haveI : IsTotal (Nat × (String × JSValue)) (fun a b => a.1 ≤ b.1) :=
    ⟨fun a b => Nat.le_total a.1 b.1⟩
  haveI : IsTrans (Nat × (String × JSValue)) (fun a b => a.1 ≤ b.1) :=
    ⟨fun _ _ _ hab hbc => Nat.le_trans hab hbc⟩
  refine ⟨((data.filterMap fun p => (arrayIndex? p.1).map fun n => (n, p)).insertionSort
    fun a b => a.1 ≤ b.1).map Prod.fst, ?_, ?_⟩
  · rw [List.map_map]
    apply List.map_congr_left
    intro x hx
    have hx2 := (List.perm_insertionSort _ _).subset hx
    rw [List.mem_filterMap] at hx2
    obtain ⟨p, -, hp⟩ := hx2
    cases hq : arrayIndex? p.1 with
    | none => simp [hq] at hp
    | some n =>
      have hp2 : (n, p) = x := by simpa [hq] using hp
      subst hp2
      simpa using hq
  · exact List.pairwise_map.mpr (List.sorted_insertionSort _ _)

/-- C7, as amended: `renderTable` gives exactly one row per entry of the mapping
(the rows are a rearrangement of the entries, each with its raw key as left cell),
in the order of `Object.entries`: first the entries whose keys are array indices
(canonical decimal integers below `2^32 - 1`) in ascending numeric order, then
all other entries in the order in which they are declared. When no key is an
array index the left cells are the keys in declared order. -/
theorem renderTable_rows (m : JSObject) :
    (renderTable m).length = m.length ∧
      (renderTable m).Perm
        (m.map fun p => ({ key := p.1, left := p.1, right := formatCell p.2 } : Row)) ∧
      (∃ (idx rest : List String) (ns : List Nat),
        (renderTable m).map Row.left = idx ++ rest ∧
        idx.map arrayIndex? = ns.map some ∧ ns.Sorted (· ≤ ·) ∧
        rest = (m.map Prod.fst).filter fun k => (arrayIndex? k).isNone) ∧
      ((∀ p ∈ m, arrayIndex? p.1 = none) → (renderTable m).map Row.left = m.map Prod.fst) := by
  have hperm : (renderTable m).Perm
      (m.map fun p => ({ key := p.1, left := p.1, right := formatCell p.2 } : Row)) :=
    (objectEntries_perm m).map _
  refine ⟨by simpa using hperm.length_eq, hperm, ?_, ?_⟩
  · obtain ⟨ns, h1, h2⟩ := indexed_sorted m
    refine ⟨((m.filterMap fun p => (arrayIndex? p.1).map fun n => (n, p)).insertionSort
      fun a b => a.1 ≤ b.1).map fun x => x.2.1, _, ns, ?_, ?_, h2, rfl⟩
    · simp only [renderTable, objectEntries, List.map_append, List.map_map]
      congr 1
      rw [List.filter_map]
      rfl
    · rw [← h1]
      simp only [List.map_map]
      rfl
  · intro h
    have h1 : (m.filterMap fun p => (arrayIndex? p.1).map fun n => (n, p)) = [] := by
      rw [List.filterMap_eq_nil_iff]
      intro p hp
      simp [h p hp]
    have h2 : (m.filter fun p => (arrayIndex? p.1).isNone) = m := by
      rw [List.filter_eq_self]
      intro p hp
      simp [h p hp]
    simp only [renderTable, objectEntries, h1, h2, List.insertionSort, List.map_nil,
      List.nil_append, List.map_map]
    rfl

theorem renderTable_rows_witness :
    (∀ p ∈ ([("Name", .string "Acme"), ("NAV", .number (.finite false 500000 0))] : JSObject),
        arrayIndex? p.1 = none) ∧
      (renderTable [("Name", .string "Acme"), ("NAV", .number (.finite false 500000 0))]).map
        Row.left = ["Name", "NAV"] :=
  ⟨by decide, (renderTable_rows [("Name", .string "Acme"),
    ("NAV", .number (.finite false 500000 0))]).2.2.2 (by decide)⟩

/-- C7, as stated, fails for keys that look like non-negative integers: the
mapping declared as `2024`, `2023`, `Name` is rendered with the left cells
`2023`, `2024`, `Name`. -/
theorem renderTable_integer_keys :
    (renderTable [("2024", .number (.finite false 1 0)), ("Name", .string "Acme"),
        ("2023", .number (.finite false 2 0))]).map Row.left = ["2023", "2024", "Name"] ∧
      (renderTable [("2024", .number (.finite false 1 0)), ("Name", .string "Acme"),
        ("2023", .number (.finite false 2 0))]).map Row.left ≠
        ([("2024", .number (.finite false 1 0)), ("Name", .string "Acme"),
          ("2023", .number (.finite false 2 0))] : JSObject).map Prod.fst :=
  ⟨by decide, by decide⟩

/-! ## The view and the state -/

theorem run_append (s : AppState) (es fs : List Event) :
    run s (es ++ fs) = run (run s es) fs := by
  simp [run, List.foldl_append]

theorem run_lpData (s : AppState) (events : List Event) :
    (run s events).lpData = ((events.filterMap Event.data?).getLast?).getD s.lpData := by
  induction events generalizing s with
  | nil => simp [run]
  | cons e es ih =>
    have hrun : run s (e :: es) = run (step s e).1 es := rfl
    have hstep : (step s e).1.lpData = (e.data?).getD s.lpData := by cases e <;> rfl
    rw [hrun, ih, hstep]
    cases hb : e.data? with
    | none => simp [List.filterMap_cons, hb]
    | some b =>
      rw [List.filterMap_cons_some hb, List.getLast?_cons]
      cases (List.filterMap Event.data? es).getLast? <;> simp

theorem run_isSome (s : AppState) (events : List Event)
    (h : ∀ e ∈ events, e.data? ≠ some none) (hs : s.lpData.isSome = true) :
    (run s events).lpData.isSome = true := by
  induction events generalizing s with
  | nil => exact hs
  | cons e es ih =>
    have hrun : run s (e :: es) = run (step s e).1 es := rfl
    rw [hrun]
    apply ih _ (fun x hx => h x (List.mem_cons_of_mem _ hx))
    have he := h e (List.mem_cons_self _ _)
    cases e with
    | reportSucceeded data =>
      cases data with
      | none => exact absurd rfl he
      | some r => rfl
    | lpsLoaded ids => exact hs
    | selectLP id => exact hs
    | selectReportDate d => exact hs
    | reportFailed err => exact hs

/-- C3: a failed report fetch leaves the whole state as it was (the held report
stays absent or stays the same report; LP list, selected LP and report date are
unchanged), so the view is unchanged too; all it does is log the error. In any
sequence of events a failure can be left out without changing the final state. -/
theorem step_reportFailed (s : AppState) (err : String) :
    step s (.reportFailed err) = (s, [.consoleError err]) ∧
      (step s (.reportFailed err)).1.lpData = s.lpData ∧
      (step s (.reportFailed err)).1.lps = s.lps ∧
      (step s (.reportFailed err)).1.selectedLP = s.selectedLP ∧
      (step s (.reportFailed err)).1.reportDate = s.reportDate ∧
      (∀ today, render today (step s (.reportFailed err)).1 = render today s) ∧
      (∀ es fs, run s (es ++ .reportFailed err :: fs) = run s (es ++ fs)) := by
  refine ⟨rfl, rfl, rfl, rfl, rfl, fun _ => rfl, ?_⟩
  intro es fs
  rw [run_append, run_append]
  rfl

/-- C4: a successful report response with body `b` makes `b` the held report,
whatever was held before and whatever LP and date are selected; the LP list, the
selected LP and the report date are unchanged and nothing is requested or logged.
Of two responses the one processed last is the one held, also with other events
that are not successful responses after it. -/
theorem step_reportSucceeded (s : AppState) (b : Report) :
    step s (.reportSucceeded (some b)) = ({ s with lpData := some b }, []) ∧
      (step s (.reportSucceeded (some b))).1.lpData = some b ∧
      (step s (.reportSucceeded (some b))).1.lps = s.lps ∧
      (step s (.reportSucceeded (some b))).1.selectedLP = s.selectedLP ∧
      (step s (.reportSucceeded (some b))).1.reportDate = s.reportDate ∧
      (∀ t : AppState, t.lps = s.lps → t.selectedLP = s.selectedLP →
        t.reportDate = s.reportDate →
        (step t (.reportSucceeded (some b))).1 = (step s (.reportSucceeded (some b))).1) ∧
      (∀ b1 : Option Report,
        (run s [.reportSucceeded b1, .reportSucceeded (some b)]).lpData = some b) ∧
      (∀ es : List Event, (run s (es ++ [.reportSucceeded (some b)])).lpData = some b) ∧
      (∀ data : Option Report, (step s (.reportSucceeded data)).1.lpData = data) := by
  refine ⟨rfl, rfl, rfl, rfl, rfl, ?_, fun _ => rfl, ?_, fun _ => rfl⟩
  · intro t h1 h2 h3
    cases t
    cases s
    simp_all [step]
  · intro es
    rw [run_append]
    rfl

theorem step_reportSucceeded_witness :
    (step { selectedState with lpData := some emptyReport }
        (.reportSucceeded (some acmeReport))).1 =
      (step selectedState (.reportSucceeded (some acmeReport))).1 :=
  (step_reportSucceeded selectedState acmeReport).2.2.2.2.2.1 _ rfl rfl rfl

theorem reportUrl_data (a b : String) :
    (reportUrl a b).data =
      "http://localhost:5000/api/lp/".data ++ a.data ++ '?' :: ("report_date=".data ++ b.data) := by
  simp [reportUrl, String.data_append]

theorem sentAddress_reportUrl (a b : String) (ha : '#' ∉ a.data) (hb : '#' ∉ b.data) :
    sentAddress (reportUrl a b) = reportUrl a b := by
  apply String.ext
  simp only [sentAddress]
  rw [List.takeWhile_eq_self_iff, reportUrl_data]
  intro c hc
  have hp : ∀ x ∈ "http://localhost:5000/api/lp/".data, (x != '#') = true := by decide
  have hq : ∀ x ∈ "report_date=".data, (x != '#') = true := by decide
  rcases List.mem_append.mp hc with hc | hc
  · rcases List.mem_append.mp hc with hc | hc
    · exact hp c hc
    · simpa using fun h : c = '#' => ha (h ▸ hc)
  · rcases List.mem_cons.mp hc with hc | hc
    · subst hc
      decide
    · rcases List.mem_append.mp hc with hc | hc
      · exact hq c hc
      · simpa using fun h : c = '#' => hb (h ▸ hc)

theorem addressPath_reportUrl (a b : String) (ha : '#' ∉ a.data) (ha2 : '?' ∉ a.data)
    (hb : '#' ∉ b.data) :
    addressPath (reportUrl a b) = "http://localhost:5000" ++ ("/api/lp/" ++ a) ∧
      addressQuery (reportUrl a b) = some ("report_date=" ++ b) := by
  have hp : ∀ x ∈ "http://localhost:5000/api/lp/".data ++ a.data, (x != '?') = true := by
    intro x hx
    have hp0 : ∀ y ∈ "http://localhost:5000/api/lp/".data, (y != '?') = true := by decide
    rcases List.mem_append.mp hx with hx | hx
    · exact hp0 x hx
    · simpa using fun h : x = '?' => ha2 (h ▸ hx)
  constructor
  · apply String.ext
    simp only [addressPath, sentAddress_reportUrl a b ha hb]
    rw [reportUrl_data, List.takeWhile_append_of_pos hp]
    simp [String.data_append]
  · simp only [addressQuery, sentAddress_reportUrl a b ha hb]
    rw [reportUrl_data, List.dropWhile_append_of_pos hp]
    simp only [List.dropWhile_cons]
    simp [String.ext_iff, String.data_append]

/-- C5, as amended: selecting an LP or a report date stores it; when the
selected LP changes to `id`, a report request is issued exactly when `id` is not
empty, and when the report date changes to `d`, exactly when the selected LP is
not empty, so a change of the date after a non-empty `id` has been selected
requests `id` with the new date. The request is one GET of the address made of
the API host, `/api/lp/`, the selected LP, `?report_date=` and the report date,
put together as they are. When `id` has no `#` and no `?` and `d` has no `#`,
the whole address is sent, with the path `/api/lp/<id>` and the query
`report_date=<d>`. With no LP selected a change of the report date issues
nothing, and the first render requests the list only. -/
theorem report_request (s : AppState) (id d : String) :
    (step s (.selectLP id)).1 = { s with selectedLP := id } ∧
      (step s (.selectReportDate d)).1 = { s with reportDate := d } ∧
      (s.selectedLP ≠ id →
        (step s (.selectLP id)).2 =
          if id = "" then []
          else [.get ("http://localhost:5000" ++ ("/api/lp/" ++ id ++ "?report_date=" ++
            s.reportDate))]) ∧
      (s.reportDate ≠ d →
        (step s (.selectReportDate d)).2 =
          if s.selectedLP = "" then []
          else [.get ("http://localhost:5000" ++ ("/api/lp/" ++ s.selectedLP ++
            "?report_date=" ++ d))]) ∧
      (s.selectedLP ≠ id → id ≠ "" → s.reportDate ≠ d →
        effects s [.selectLP id, .selectReportDate d] =
          [.get ("http://localhost:5000" ++ ("/api/lp/" ++ id ++ "?report_date=" ++
              s.reportDate)),
            .get ("http://localhost:5000" ++ ("/api/lp/" ++ id ++ "?report_date=" ++ d))]) ∧
      (s.selectedLP = "" → (step s (.selectReportDate d)).2 = []) ∧
      (∀ today : String, mountEffects today = [.get "http://localhost:5000/api/lps"]) ∧
      ('#' ∉ id.data → '?' ∉ id.data → '#' ∉ d.data →
        sentAddress ("http://localhost:5000" ++ ("/api/lp/" ++ id ++ "?report_date=" ++ d)) =
            "http://localhost:5000" ++ ("/api/lp/" ++ id ++ "?report_date=" ++ d) ∧
          addressPath ("http://localhost:5000" ++ ("/api/lp/" ++ id ++ "?report_date=" ++ d)) =
            "http://localhost:5000" ++ ("/api/lp/" ++ id) ∧
          addressQuery ("http://localhost:5000" ++ ("/api/lp/" ++ id ++ "?report_date=" ++ d)) =
            some ("report_date=" ++ d)) ∧
      (step loadedState (.selectLP "LP2")).2 =
        [.get "http://localhost:5000/api/lp/LP2?report_date=2024-01-01"] := by
  have hurl : ∀ a b : String, reportUrl a b =
      "http://localhost:5000" ++ ("/api/lp/" ++ a ++ "?report_date=" ++ b) := by
    intro a b
    apply String.ext
    simp [reportUrl, String.data_append]
  refine ⟨rfl, rfl, ?_, ?_, ?_, ?_, fun _ => rfl, ?_, by decide⟩
  · intro h
    by_cases hid : id = "" <;> simp [step, reportEffect, h, hid, hurl]
  · intro h
    by_cases hid : s.selectedLP = "" <;> simp [step, reportEffect, h, hid, hurl]
  · intro h hid hd
    simp [effects, step, reportEffect, h, hid, hd, hurl]
  · intro h
    by_cases hd : s.reportDate = d <;> simp [step, reportEffect, h, hd]
  · intro h1 h2 h3
    rw [← hurl]
    exact ⟨sentAddress_reportUrl id d h1 h3, addressPath_reportUrl id d h1 h2 h3⟩

theorem report_request_witness :
    ("" : String) ≠ "LP2" ∧ ("LP2" : String) ≠ "" ∧ ("2024-01-01" : String) ≠ "2023-06-30" ∧
      (step loadedState (.selectLP "LP2")).2 =
        [.get "http://localhost:5000/api/lp/LP2?report_date=2024-01-01"] ∧
      (step loadedState (.selectReportDate "2023-06-30")).2 = [] ∧
      effects loadedState [.selectLP "LP2", .selectReportDate "2023-06-30"] =
        [.get "http://localhost:5000/api/lp/LP2?report_date=2024-01-01",
          .get "http://localhost:5000/api/lp/LP2?report_date=2023-06-30"] ∧
      loadedState.selectedLP = "" ∧
      (step loadedState (.selectReportDate "2024-01-01")).2 = [] ∧
      '#' ∉ "LP2".data ∧ '?' ∉ "LP2".data ∧ '#' ∉ "2023-06-30".data ∧
      addressPath "http://localhost:5000/api/lp/LP2?report_date=2023-06-30" =
        "http://localhost:5000/api/lp/LP2" ∧
      addressQuery "http://localhost:5000/api/lp/LP2?report_date=2023-06-30" =
        some "report_date=2023-06-30" := by
  have h := report_request loadedState "LP2" "2023-06-30"
  have h2 := report_request loadedState "LP2" "2024-01-01"
  have h3 := h.2.2.2.2.2.2.2.1 (by decide) (by decide) (by decide)
  exact ⟨by decide, by decide, by decide, (h.2.2.1 (by decide)).trans (by decide),
    (h.2.2.2.1 (by decide)).trans (by decide),
    (h.2.2.2.2.1 (by decide) (by decide) (by decide)).trans (by decide),
    rfl, h2.2.2.2.2.2.1 rfl, by decide, by decide, by decide,
    (h3.2.1).trans (by decide), (h3.2.2).trans (by decide)⟩

/-- C5, as stated, fails for identifiers with `#` or `?`: with the LP `LP#2`
selected the address requested is `.../api/lp/LP#2?report_date=2024-01-01`, of
which only `.../api/lp/LP` is sent, without any `report_date`; and for the LP
`A?B` the path sent is `/api/lp/A` and the query is `B?report_date=2024-01-01`. -/
theorem report_request_reserved :
    effects (init "2024-01-01") [.lpsLoaded ["LP#2", "A?B"], .selectLP "LP#2"] =
        [.get "http://localhost:5000/api/lp/LP#2?report_date=2024-01-01"] ∧
      sentAddress "http://localhost:5000/api/lp/LP#2?report_date=2024-01-01" =
        "http://localhost:5000/api/lp/LP" ∧
      addressPath "http://localhost:5000/api/lp/LP#2?report_date=2024-01-01" ≠
        "http://localhost:5000/api/lp/LP#2" ∧
      addressQuery "http://localhost:5000/api/lp/LP#2?report_date=2024-01-01" = none ∧
      effects (init "2024-01-01") [.lpsLoaded ["LP#2", "A?B"], .selectLP "A?B"] =
        [.get "http://localhost:5000/api/lp/A?B?report_date=2024-01-01"] ∧
      addressPath "http://localhost:5000/api/lp/A?B?report_date=2024-01-01" =
        "http://localhost:5000/api/lp/A" ∧
      addressQuery "http://localhost:5000/api/lp/A?B?report_date=2024-01-01" =
        some "B?report_date=2024-01-01" :=
  ⟨by decide, by decide, by decide, by decide, by decide, by decide, by decide⟩

/-- C6: the output below the controls is computed from the held report alone:
nothing when no report is held, and otherwise, in this order, the table titled
`LP Info` from `lp_info`, the table titled `Fund Data` from `fund_data`, the table
titled `Totals` from `totals`, and the IRR line with the IRR text and the caption
`(as of PCAP Date: <pcap_report_date>)`, the date verbatim, also when `irr` is
null. -/
theorem render_output (today : String) (s : AppState) :
    (render today s).2 = renderOutput s.lpData ∧
      renderOutput none = [] ∧
      (∀ r : Report, renderOutput (some r) =
        [.table "LP Info" (renderTable r.lp_info),
          .table "Fund Data" (renderTable r.fund_data),
          .table "Totals" (renderTable r.totals),
          .irrLine "IRR: " (irrText r.irr) ("(as of PCAP Date: " ++ r.pcap_report_date ++ ")")]) ∧
      (∀ (today2 : String) (t : AppState), t.lpData = s.lpData →
        (render today2 t).2 = (render today s).2) ∧
      renderOutput (some acmeReport) =
        [.table "LP Info" [⟨"Name", "Name", .string "Acme"⟩],
          .table "Fund Data" [⟨"NAV", "NAV", .string "$500,000.00"⟩],
          .table "Totals" [⟨"Capital Called", "Capital Called", .string "$100,000.00"⟩],
          .irrLine "IRR: " "12.00%" "(as of PCAP Date: 2023-12-31)"] ∧
      renderOutput (some emptyReport) =
        [.table "LP Info" [], .table "Fund Data" [], .table "Totals" [],
          .irrLine "IRR: " "N/A" "(as of PCAP Date: 2023-09-30)"] := by
  refine ⟨rfl, rfl, fun _ => rfl, ?_, by decide, by decide⟩
  intro today2 t h
  simp [render, h]

theorem render_output_witness :
    ({ selectedState with lpData := some acmeReport } : AppState).lpData =
        ({ loadedState with lpData := some acmeReport } : AppState).lpData ∧
      (render "2024-02-02" { selectedState with lpData := some acmeReport }).2 =
        (render "2024-01-01" { loadedState with lpData := some acmeReport }).2 :=
  ⟨rfl, (render_output "2024-01-01" { loadedState with lpData := some acmeReport }).2.2.2.1
    "2024-02-02" { selectedState with lpData := some acmeReport } rfl⟩

/-- C8, as amended: starting from the initial state, after any sequence of
events the held report is the `data` of the last successful report response, so
it is absent (and nothing is rendered below the controls) exactly when no report
fetch has succeeded or the last one that succeeded had the body `null`; when no
successful response has the body `null`, exactly when no report fetch has
succeeded. Loading the list, selecting an LP or a date, and a failed fetch leave
the held report as it is, and a held report does not become absent again by
events none of which is a successful response with the body `null`. -/
theorem displayed_report (today : String) (events : List Event) :
    (run (init today) events).lpData = ((events.filterMap Event.data?).getLast?).getD none ∧
      ((run (init today) events).lpData = none ↔
        (∀ e ∈ events, e.data? = none) ∨
          (events.filterMap Event.data?).getLast? = some none) ∧
      (renderOutput (run (init today) events).lpData = [] ↔
        (∀ e ∈ events, e.data? = none) ∨
          (events.filterMap Event.data?).getLast? = some none) ∧
      ((∀ e ∈ events, e.data? ≠ some none) →
        ((run (init today) events).lpData = none ↔ ∀ e ∈ events, e.data? = none)) ∧
      (∀ (s : AppState) (e : Event), e.data? = none → (step s e).1.lpData = s.lpData) ∧
      (∀ (s : AppState) (e : Event), (step s e).1.lpData = (e.data?).getD s.lpData) ∧
      (∀ more : List Event, (∀ e ∈ more, e.data? ≠ some none) →
        (run (init today) events).lpData.isSome = true →
        (run (init today) (events ++ more)).lpData.isSome = true) := by
  have h1 : (run (init today) events).lpData =
      ((events.filterMap Event.data?).getLast?).getD none := by
    rw [run_lpData]
    rfl
  have h0 : (events.filterMap Event.data?).getLast? = none ↔ ∀ e ∈ events, e.data? = none := by
    rw [List.getLast?_eq_none_iff, List.filterMap_eq_nil_iff]
  have h2 : (run (init today) events).lpData = none ↔
      (∀ e ∈ events, e.data? = none) ∨
        (events.filterMap Event.data?).getLast? = some none := by
    rw [h1, ← h0]
    cases hl : (List.filterMap Event.data? events).getLast? with
    | none => simp
    | some d => cases d <;> simp
  have hstep : ∀ (s : AppState) (e : Event), (step s e).1.lpData = (e.data?).getD s.lpData := by
    intro s e
    cases e <;> rfl
  refine ⟨h1, h2, ?_, ?_, ?_, hstep, ?_⟩
  · rw [← h2]
    cases (run (init today) events).lpData <;> simp [renderOutput]
  · intro hno
    rw [h2]
    constructor
    · rintro (h | h)
      · exact h
      · exfalso
        have hm := List.mem_of_getLast?_eq_some h
        rw [List.mem_filterMap] at hm
        obtain ⟨e, he, hd⟩ := hm
        exact hno e he hd
    · exact Or.inl
  · intro s e he
    rw [hstep, he]
    rfl
  · intro more hmore h
    rw [run_append]
    exact run_isSome _ more hmore h

theorem displayed_report_witness :
    (∀ e ∈ [Event.selectLP "LP2", .reportSucceeded (some acmeReport)], e.data? ≠ some none) ∧
      ((run (init "2024-01-01")
          [.selectLP "LP2", .reportSucceeded (some acmeReport)]).lpData = none ↔
        ∀ e ∈ [Event.selectLP "LP2", .reportSucceeded (some acmeReport)], e.data? = none) ∧
      (run (init "2024-01-01")
        [.selectLP "LP2", .reportSucceeded (some acmeReport)]).lpData.isSome = true ∧
      (∀ e ∈ [Event.selectReportDate "2023-06-30", .reportFailed "Network Error"],
        e.data? ≠ some none) ∧
      (run (init "2024-01-01") ([.selectLP "LP2", .reportSucceeded (some acmeReport)] ++
        [.selectReportDate "2023-06-30", .reportFailed "Network Error"])).lpData.isSome = true ∧
      Event.data? (.selectReportDate "2023-06-30") = none ∧
      (step selectedState (.selectReportDate "2023-06-30")).1.lpData = selectedState.lpData :=
  ⟨by decide,
    (displayed_report "2024-01-01" [.selectLP "LP2", .reportSucceeded (some acmeReport)]).2.2.2.1
      (by decide),
    rfl, by decide,
    (displayed_report "2024-01-01"
      [.selectLP "LP2", .reportSucceeded (some acmeReport)]).2.2.2.2.2.2
      [.selectReportDate "2023-06-30", .reportFailed "Network Error"] (by decide) rfl,
    rfl,
    (displayed_report "2024-01-01" []).2.2.2.2.1 selectedState
      (.selectReportDate "2023-06-30") rfl⟩

/-- C8, as stated, fails: a successful response whose body is the JSON text
`null` leaves the report absent although a fetch has succeeded, and after a
report has been displayed such a response makes it absent again. -/
theorem displayed_report_null_body :
    (run (init "2024-01-01") [.selectLP "LP2", .reportSucceeded none]).lpData = none ∧
      ¬ (∀ e ∈ [Event.selectLP "LP2", .reportSucceeded none], e.data? = none) ∧
      renderOutput (run (init "2024-01-01")
        [.selectLP "LP2", .reportSucceeded (some acmeReport)]).lpData ≠ [] ∧
      renderOutput (run (init "2024-01-01")
        [.selectLP "LP2", .reportSucceeded (some acmeReport), .reportSucceeded none]).lpData
          = [] :=
  ⟨by decide, by decide, by decide, by decide⟩

/-- C10, at the failing input: on `2024-01-01` the report date starts as that
date and the date field is given that date as its `max`, but the change handler
stores the later date `2024-01-02` when the field delivers it, and a report is
requested for it. The handler stores whatever date it is given. -/
theorem selectReportDate_later :
    (init "2024-01-01").reportDate = "2024-01-01" ∧
      (render "2024-01-01" selectedState).1.dateMax = "2024-01-01" ∧
      "2024-01-01".data < "2024-01-02".data ∧
      run (init "2024-01-01") [.lpsLoaded ["LP1", "LP2"], .selectLP "LP2"] = selectedState ∧
      step selectedState (.selectReportDate "2024-01-02") =
        ({ selectedState with reportDate := "2024-01-02" },
          [.get "http://localhost:5000/api/lp/LP2?report_date=2024-01-02"]) ∧
      effects (init "2024-01-01")
          [.lpsLoaded ["LP1", "LP2"], .selectLP "LP2", .selectReportDate "2024-01-02"] =
        [.get "http://localhost:5000/api/lp/LP2?report_date=2024-01-01",
          .get "http://localhost:5000/api/lp/LP2?report_date=2024-01-02"] ∧
      (∀ (s : AppState) (d : String), (step s (.selectReportDate d)).1.reportDate = d) :=
  ⟨rfl, rfl, by decide, by decide, by decide, by decide, fun _ _ => rfl⟩

end LPDashboard
